import Mathlib

/-!
Verification of the volumetric dose-field subsystem of the open-gate-viewer
repository: the MHD header/raw codec (`MHDHandler`), the dose-field synthesizer
and export pipeline (`RadiationSceneManager`), and the base64 persistence codec
(`SceneSerializer`).

Text is modelled as `List Char`, binary buffers as `List Nat` (bytes, each
`< 256`), and JavaScript numbers as real numbers, with an explicit `Option ℝ`
wrapper (`none` = non-finite, NaN) where a division by zero can occur.
-/

set_option autoImplicit false
set_option maxHeartbeats 1000000

namespace OGV

/-- Shorthand turning a string literal into the `List Char` text model. -/
def str (s : String) : List Char := s.data

/-- Whitespace characters recognised by the JavaScript `trim` and the `\s`
regex class, restricted to the ASCII range (the only range exercised by the
MHD header format). -/
def isWs (c : Char) : Bool :=
  c == ' ' || c == '\t' || c == '\n' || c == '\r' || c == '\x0b' || c == '\x0c'

/-- Model of `String.prototype.trim`: drop whitespace from both ends. -/
def trim (l : List Char) : List Char :=
  ((l.dropWhile isWs).reverse.dropWhile isWs).reverse

/-- Model of `text.split(/\r?\n/)` from `MHDHandler.parseHeader`: a line break
is either `\r\n` or a bare `\n`; a lone `\r` does not break a line. -/
def splitLinesAux : List Char → List Char → List (List Char)
  | [], acc => [acc.reverse]
  | '\r' :: '\n' :: rest, acc => acc.reverse :: splitLinesAux rest []
  | '\n' :: rest, acc => acc.reverse :: splitLinesAux rest []
  | c :: rest, acc => splitLinesAux rest (c :: acc)

def splitLines (text : List Char) : List (List Char) := splitLinesAux text []

/-- Model of `line.split(sep)` for a single-character separator: split at every
occurrence of `sep`. -/
def splitOnChar (sep : Char) : List Char → List (List Char)
  | [] => [[]]
  | c :: rest =>
    if c = sep then [] :: splitOnChar sep rest
    else
      match splitOnChar sep rest with
      | [] => [[c]]
      | part :: parts => (c :: part) :: parts

/-- Single pass of `value.split(/\s+/)`: `inWs` records whether the previous
character was part of a whitespace run (so the run contributes only one
split), `acc` holds the current token reversed. -/
def splitWsGo : Bool → List Char → List Char → List (List Char)
  | _, [], acc => [acc.reverse]
  | inWs, c :: rest, acc =>
    if isWs c then
      if inWs then splitWsGo true rest acc
      else acc.reverse :: splitWsGo true rest []
    else splitWsGo false rest (c :: acc)

/-- Model of `value.split(/\s+/)`: split at every maximal whitespace run. -/
def splitWs (l : List Char) : List (List Char) := splitWsGo false l []

/-- JavaScript object property assignment `header[key] = val` on a plain
object: overwrite an existing own property, else append a new one. -/
def upsert (m : List (List Char × List Char)) (k v : List Char) :
    List (List Char × List Char) :=
  match m with
  | [] => [(k, v)]
  | (k', v') :: rest => if k' = k then (k, v) :: rest else (k', v') :: upsert rest k v

/-- Property lookup `header[key]` (own properties of the parsed mapping). -/
def hLookup (m : List (List Char × List Char)) (k : List Char) : Option (List Char) :=
  match m with
  | [] => none
  | (k', v) :: rest => if k' = k then some v else hLookup rest k

/-- Model of `MHDHandler.parseHeader`: split into lines, skip lines that are
blank after trimming, split each remaining line on `=`; when at least two
segments result, store `trim(segment 0) → trim(segment 1)` (later segments of
the same line are discarded by the source, which reads only `parts[0]` and
`parts[1]`). -/
def parseHeader (text : List Char) : List (List Char × List Char) :=
  (splitLines text).foldl
    (fun h line =>
      if (trim line).isEmpty then h
      else
        match splitOnChar '=' line with
        | k :: v :: _ => upsert h (trim k) (trim v)
        | _ => h)
    []

/-- The header entry contributed by one line of input text, if any: blank
lines (after trimming) contribute nothing, a line with no `=` contributes
nothing, and otherwise the key is the trimmed text before the first `=` and
the value is the trimmed text between the first and second `=` (text after a
second `=` is discarded, because the source reads only `parts[1]`). -/
def headerLineEntry (line : List Char) : Option (List Char × List Char) :=
  if (trim line).isEmpty then none
  else
    match splitOnChar '=' line with
    | k :: v :: _ => some (trim k, trim v)
    | _ => none

theorem find?_append {α : Type} (p : α → Bool) :
    ∀ l₁ l₂ : List α, (l₁ ++ l₂).find? p =
      match l₁.find? p with
      | some a => some a
      | none => l₂.find? p
  | [], l₂ => by simp [List.find?]
  | a :: l₁, l₂ => by
    simp only [List.cons_append, List.find?]
    cases p a with
    | true => rfl
    | false => exact find?_append p l₁ l₂

theorem hLookup_upsert (m : List (List Char × List Char)) (k v key : List Char) :
    hLookup (upsert m k v) key = if k = key then some v else hLookup m key := by
  induction m with
  | nil => simp [upsert, hLookup]
  | cons p rest ih =>
    obtain ⟨k', v'⟩ := p
    by_cases hk : k' = k
    · subst hk
      simp only [upsert, if_pos rfl, hLookup]
      by_cases h1 : k' = key <;> simp [h1]
    · simp only [upsert, hLookup, if_neg hk]
      rw [ih]
      by_cases h1 : k' = key
      · subst h1
        have h2 : ¬ k = k' := fun h => hk h.symm
        simp [hLookup, h2]
      · simp [hLookup, h1]

theorem foldl_upsert_find (es : List (List Char × List Char))
    (m : List (List Char × List Char)) (key : List Char) :
    hLookup (es.foldl (fun h e => upsert h e.1 e.2) m) key =
      ((es.reverse.find? (fun e => e.1 == key)).map (fun e => e.2)).getD
        (hLookup m key) := by
  induction es generalizing m with
  | nil => simp
  | cons e es ih =>
    obtain ⟨k, v⟩ := e
    simp only [List.foldl_cons, List.reverse_cons]
    rw [ih, find?_append]
    cases hfind : es.reverse.find? (fun e => e.1 == key) with
    | some p => simp
    | none =>
      simp only []
      rw [hLookup_upsert]
      by_cases hk : k = key
      · subst hk
        simp [List.find?]
      · have hbeq : (k == key) = false := by
          simpa using hk
        simp [List.find?, hbeq, hk]

theorem parseHeader_eq_foldl_entries (text : List Char) :
    parseHeader text =
      ((splitLines text).filterMap headerLineEntry).foldl
        (fun h e => upsert h e.1 e.2) [] := by
  unfold parseHeader
  generalize splitLines text = lines
  suffices h : ∀ (m : List (List Char × List Char)),
      lines.foldl
        (fun h line =>
          if (trim line).isEmpty then h
          else
            match splitOnChar '=' line with
            | k :: v :: _ => upsert h (trim k) (trim v)
            | _ => h)
        m =
      (lines.filterMap headerLineEntry).foldl (fun h e => upsert h e.1 e.2) m by
    exact h []
  induction lines with
  | nil => intro m; rfl
  | cons line rest ih =>
    intro m
    simp only [List.foldl_cons, List.filterMap_cons]
    by_cases hb : (trim line).isEmpty
    · simp only [if_pos hb, headerLineEntry, hb, if_true]
      exact ih m
    · simp only [if_neg hb, headerLineEntry, hb, if_false]
      cases hsp : splitOnChar '=' line with
      | nil => simpa using ih m
      | cons k tail =>
        cases tail with
        | nil => simpa using ih m
        | cons v tail' =>
          simp only [List.foldl_cons]
          exact ih _

/-- C6: `parseHeader` splits on CR/LF or LF line breaks, skips blank lines and
lines without `=`, keys each remaining line by the trimmed text before the
first `=`, stores as value the trimmed text between the first and second `=`
(discarding anything after a second `=`), and a duplicated key resolves to its
last occurrence.  Stated as: looking up any key in the parsed header yields
the value of the last line contributing that key. -/
theorem parseHeader_characterization (text key : List Char) :
    hLookup (parseHeader text) key =
      (((splitLines text).filterMap headerLineEntry).reverse.find?
        (fun e => e.1 == key)).map (fun e => e.2) := by
  rw [parseHeader_eq_foldl_entries, foldl_upsert_find]
  cases h : ((splitLines text).filterMap headerLineEntry).reverse.find?
      (fun e => e.1 == key) <;> simp [hLookup]

/-- C6 counterexample: the source splits each line at EVERY `=` and keeps only
the second segment as the value, so a value containing a further `=` is NOT
kept intact: parsing `A = b=c` stores the value `b`, not `b=c`. -/
theorem parseHeader_first_eq_counterexample :
    hLookup (parseHeader (str "A = b=c")) (str "A") = some (str "b") ∧
      str "b" ≠ str "b=c" := by
  constructor
  · rfl
  · decide

/-! ## Persistence codec: `SceneSerializer.float32ToBase64` / `base64ToFloat32`

Bytes are `Nat` values `< 256`.  `float32ToBase64` views a `Float32Array`'s
backing buffer as bytes, builds a binary string (the chunked
`String.fromCharCode` loop concatenates to exactly the byte sequence) and
applies `window.btoa`; `base64ToFloat32` applies `window.atob`, rebuilds a
byte buffer and reinterprets it as a `Float32Array` (which requires the byte
length to be a multiple of 4). -/

/-- The base64 alphabet character for a sextet (`0 ≤ n < 64`). -/
def b64char (n : Nat) : Char :=
  if n < 26 then Char.ofNat (65 + n)
  else if n < 52 then Char.ofNat (97 + (n - 26))
  else if n < 62 then Char.ofNat (48 + (n - 52))
  else if n = 62 then '+'
  else '/'

/-- The sextet denoted by a base64 alphabet character, if any. -/
def b64val (c : Char) : Option Nat :=
  if 65 ≤ c.toNat ∧ c.toNat ≤ 90 then some (c.toNat - 65)
  else if 97 ≤ c.toNat ∧ c.toNat ≤ 122 then some (26 + (c.toNat - 97))
  else if 48 ≤ c.toNat ∧ c.toNat ≤ 57 then some (52 + (c.toNat - 48))
  else if c = '+' then some 62
  else if c = '/' then some 63
  else none

/-- Model of `window.btoa` on a byte sequence: standard base64 with `=`
padding, three bytes to four characters. -/
def btoaBytes : List Nat → List Char
  | [] => []
  | [b0] => [b64char (b0 / 4), b64char (b0 % 4 * 16), '=', '=']
  | [b0, b1] => [b64char (b0 / 4), b64char (b0 % 4 * 16 + b1 / 16),
      b64char (b1 % 16 * 4), '=']
  | b0 :: b1 :: b2 :: rest =>
      b64char (b0 / 4) :: b64char (b0 % 4 * 16 + b1 / 16) ::
      b64char (b1 % 16 * 4 + b2 / 64) :: b64char (b2 % 64) :: btoaBytes rest

/-- Model of `window.atob` on canonically padded base64 text: four characters
to three bytes, with the final quantum possibly `=`-padded.  Malformed input
(a character outside the alphabet, a length that is not a multiple of four, or
padding before the end) is a thrown `InvalidCharacterError`, modelled as
`none`.  The forgiving-base64 extras browsers accept on input (embedded ASCII
whitespace, omitted trailing padding) are never produced by `btoaBytes` and
are not modelled. -/
def atobBytes : List Char → Option (List Nat)
  | c0 :: c1 :: c2 :: c3 :: rest => do
      let n0 ← b64val c0
      let n1 ← b64val c1
      if c2 = '=' then
        if c3 = '=' ∧ rest = [] then pure [n0 * 4 + n1 / 16] else none
      else do
        let n2 ← b64val c2
        if c3 = '=' then
          if rest = [] then pure [n0 * 4 + n1 / 16, n1 % 16 * 16 + n2 / 4]
          else none
        else do
          let n3 ← b64val c3
          let tail ← atobBytes rest
          pure ((n0 * 4 + n1 / 16) :: (n1 % 16 * 16 + n2 / 4) ::
            (n2 % 4 * 64 + n3) :: tail)
  | [] => some []
  | _ => none

/-- `SceneSerializer.float32ToBase64`: encode the float array's raw bytes. -/
def float32ToBase64 (bytes : List Nat) : List Char := btoaBytes bytes

/-- `SceneSerializer.base64ToFloat32`: decode the text back to bytes and
reinterpret as a `Float32Array`; a decoded length that is not a multiple of 4
makes the `Float32Array` constructor throw (modelled as `none`). -/
def base64ToFloat32 (text : List Char) : Option (List Nat) :=
  (atobBytes text).bind fun bytes =>
    if bytes.length % 4 = 0 then some bytes else none

theorem b64val_b64char : ∀ n, n < 64 → b64val (b64char n) = some n := by
  decide

theorem b64char_ne_pad : ∀ n, n < 64 → b64char n ≠ '=' := by
  decide

theorem atob_btoa (bytes : List Nat) (h : ∀ b ∈ bytes, b < 256) :
    atobBytes (btoaBytes bytes) = some bytes := by
  match bytes with
  | [] => rfl
  | [b0] =>
    have hb0 : b0 < 256 := h b0 (by simp)
    have h0 : b0 / 4 < 64 := by omega
    have h1 : b0 % 4 * 16 < 64 := by omega
    simp only [btoaBytes, atobBytes, b64val_b64char _ h0, b64val_b64char _ h1,
      Option.bind_eq_bind, Option.some_bind, if_pos rfl, and_self, if_true]
    rw [show b0 / 4 * 4 + b0 % 4 * 16 / 16 = b0 by omega]
    rfl
  | [b0, b1] =>
    have hb0 : b0 < 256 := h b0 (by simp)
    have hb1 : b1 < 256 := h b1 (by simp)
    have h0 : b0 / 4 < 64 := by omega
    have h1 : b0 % 4 * 16 + b1 / 16 < 64 := by omega
    have h2 : b1 % 16 * 4 < 64 := by omega
    simp only [btoaBytes, atobBytes, b64val_b64char _ h0, b64val_b64char _ h1,
      b64val_b64char _ h2, Option.bind_eq_bind, Option.some_bind,
      if_neg (b64char_ne_pad _ h2), if_pos rfl]
    rw [show b0 / 4 * 4 + (b0 % 4 * 16 + b1 / 16) / 16 = b0 by omega,
      show (b0 % 4 * 16 + b1 / 16) % 16 * 16 + b1 % 16 * 4 / 4 = b1 by omega]
    rfl
  | b0 :: b1 :: b2 :: rest =>
    have hb0 : b0 < 256 := h b0 (by simp)
    have hb1 : b1 < 256 := h b1 (by simp)
    have hb2 : b2 < 256 := h b2 (by simp)
    have h0 : b0 / 4 < 64 := by omega
    have h1 : b0 % 4 * 16 + b1 / 16 < 64 := by omega
    have h2 : b1 % 16 * 4 + b2 / 64 < 64 := by omega
    have h3 : b2 % 64 < 64 := by omega
    have ih : atobBytes (btoaBytes rest) = some rest :=
      atob_btoa rest (fun b hb => h b (by simp [hb]))
    simp only [btoaBytes, atobBytes, b64val_b64char _ h0, b64val_b64char _ h1,
      b64val_b64char _ h2, b64val_b64char _ h3, Option.bind_eq_bind,
      Option.some_bind, if_neg (b64char_ne_pad _ h2),
      if_neg (b64char_ne_pad _ h3), ih]
    rw [show b0 / 4 * 4 + (b0 % 4 * 16 + b1 / 16) / 16 = b0 by omega,
      show (b0 % 4 * 16 + b1 / 16) % 16 * 16 + (b1 % 16 * 4 + b2 / 64) / 4 = b1 by omega,
      show (b1 % 16 * 4 + b2 / 64) % 4 * 64 + b2 % 64 = b2 by omega]
    rfl

/-- Presentation parameters bundled with a persisted volume
(`points.userData.params`). -/
structure VolParams where
  minThreshold : ℚ
  maxThreshold : ℚ
  pointSize : ℚ
  visible : Bool
deriving DecidableEq

/-- One entry of `state.volumes` in the saved scene JSON: the parsed header
mapping, the presentation params, and the base64 blob of the voxel data. -/
structure VolumeEntry where
  header : List (List Char × List Char)
  params : VolParams
  dataBase64 : List Char
deriving DecidableEq

/-- Serialization of one imported volume in `SceneSerializer.serialize`:
the header and params are stored as-is, the `Float32Array` data through
`float32ToBase64`. -/
def serializeVolume (header : List (List Char × List Char)) (params : VolParams)
    (bytes : List Nat) : VolumeEntry :=
  ⟨header, params, float32ToBase64 bytes⟩

/-- Restoration of one volume in `SceneSerializer.deserialize`: the base64
blob is decoded through `base64ToFloat32`, the header and params are taken
verbatim from the entry. -/
def deserializeVolume (v : VolumeEntry) :
    Option (List (List Char × List Char) × VolParams × List Nat) :=
  (base64ToFloat32 v.dataBase64).map fun bytes => (v.header, v.params, bytes)

/-- C1: decoding the persistence blob produced from a `Float32Array` recovers
the exact bytes (hence the exact float32 bit patterns, element for element,
with no compression or quantization), and the bundled header and presentation
params are returned unchanged.  `bytes` is the array's backing buffer: every
byte is `< 256` and the length is a multiple of 4. -/
theorem volume_persistence_roundtrip (header : List (List Char × List Char))
    (params : VolParams) (bytes : List Nat)
    (hb : ∀ b ∈ bytes, b < 256) (hlen : bytes.length % 4 = 0) :
    deserializeVolume (serializeVolume header params bytes) =
      some (header, params, bytes) := by
  unfold deserializeVolume serializeVolume float32ToBase64 base64ToFloat32
  rw [atob_btoa bytes hb]
  simp [hlen]

/-- C1 witness: the round trip evaluated on the four little-endian bytes of
the float32 value `1.0`. -/
theorem volume_persistence_roundtrip_witness :
    deserializeVolume (serializeVolume [] ⟨0, 1, 1, true⟩ [0, 0, 128, 63]) =
      some ([], ⟨0, 1, 1, true⟩, [0, 0, 128, 63]) :=
  volume_persistence_roundtrip [] ⟨0, 1, 1, true⟩ [0, 0, 128, 63]
    (by decide) (by decide)

/-! ## Raw binary decode: `MHDHandler.parseRawData`

Decoded scalars are modelled by the raw bit pattern read from the buffer (a
`Nat` assembled from `byteWidth` bytes in the declared byte order); no claim
depends on the numeric interpretation of a scalar, only on which reads
succeed.  A `DataView` getter whose read would extend past the end of the
buffer throws a `RangeError` instead of reading out of bounds; the `try`
block catches it (alert + `return null`). -/

/-- Decimal digit of a value `< 10`. -/
def digitChar (d : Nat) : Char := Char.ofNat (48 + d)

/-- Decimal digit test (`0`–`9`). -/
def isDigitB (c : Char) : Bool := 48 ≤ c.toNat && c.toNat ≤ 57

/-- Value of a decimal digit character. -/
def digitVal (c : Char) : Nat := c.toNat - 48

/-- Decimal rendering of a natural number, as JavaScript renders an
integer-valued number. -/
def renderNat (n : Nat) : List Char :=
  if n = 0 then ['0'] else (Nat.digits 10 n).reverse.map digitChar

/-- JavaScript `Number(token)` restricted to the modelled region: a non-empty
token of plain decimal digits yields the denoted natural; anything else is
outside the modelled region (`none`). -/
def parseDecimalNat (l : List Char) : Option Nat :=
  if l ≠ [] ∧ l.all isDigitB then some (Nat.ofDigits 10 ((l.map digitVal).reverse))
  else none

/-- The three voxel counts of a `DimSize` header value:
`header['DimSize'].split(/\s+/).map(Number)`, of which the source reads the
first three entries. -/
def parseDims (v : List Char) : Option (Nat × Nat × Nat) :=
  match splitWs v with
  | t0 :: t1 :: t2 :: _ => do
      let d0 ← parseDecimalNat t0
      let d1 ← parseDecimalNat t1
      let d2 ← parseDecimalNat t2
      pure (d0, d1, d2)
  | _ => none

/-- `MHDHandler.getTypeSize`: byte stride per element type, defaulting to 4
for an unknown token (`type` is the `ElementType` value, absent allowed). -/
def getTypeSize (t : Option (List Char)) : Nat :=
  match t with
  | some v =>
    if v = str "MET_UCHAR" ∨ v = str "MET_CHAR" then 1
    else if v = str "MET_USHORT" ∨ v = str "MET_SHORT" then 2
    else if v = str "MET_UINT" ∨ v = str "MET_INT" ∨ v = str "MET_FLOAT" then 4
    else if v = str "MET_DOUBLE" then 8
    else 4
  | none => 4

/-- `MHDHandler.getDataGetter` returns a `DataView` getter for the eight known
element types and `null` otherwise; this predicate is `true` exactly when a
getter exists. -/
def knownType (t : Option (List Char)) : Bool :=
  match t with
  | some v =>
    v = str "MET_UCHAR" || v = str "MET_CHAR" || v = str "MET_USHORT" ||
    v = str "MET_SHORT" || v = str "MET_UINT" || v = str "MET_INT" ||
    v = str "MET_FLOAT" || v = str "MET_DOUBLE"
  | none => false

/-- A little-endian word assembled from a byte list. -/
def wordOfBytes : List Nat → Nat
  | [] => 0
  | b :: rest => b + 256 * wordOfBytes rest

/-- One `DataView` getter call: read `width` bytes at `offset` honoring the
endianness flag, or fail (a `RangeError`) when the read would extend past the
end of the buffer. -/
def readElem (buffer : List Nat) (offset width : Nat) (littleEndian : Bool) :
    Option Nat :=
  if offset + width ≤ buffer.length then
    let bs := (buffer.drop offset).take width
    some (wordOfBytes (if littleEndian then bs else bs.reverse))
  else none

/-- The sequential read loop of `parseRawData`: `count` elements of `width`
bytes each starting at `offset`, advancing by `width`; the first out-of-range
read aborts the whole loop (the thrown `RangeError`). -/
def readSeq (buffer : List Nat) (offset width : Nat) (littleEndian : Bool) :
    Nat → Option (List Nat)
  | 0 => some []
  | count + 1 => do
      let v ← readElem buffer offset width littleEndian
      let rest ← readSeq buffer (offset + width) width littleEndian count
      pure (v :: rest)

/-- Outcome of `MHDHandler.parseRawData`.  `success` is a returned data array;
`unsupportedType` is the `alert` + `return null` for a missing getter;
`readFault` is the caught binary-parsing exception (`alert` + `return null`).
The `warned` flag records whether the buffer-size warning was logged before
the loop. -/
inductive RawOutcome where
  | success (data : List Nat) (warned : Bool)
  | unsupportedType
  | readFault (warned : Bool)
deriving DecidableEq

/-- Model of `MHDHandler.parseRawData` on its modelled region.  The outer
`none` marks inputs outside the region: a header with no `DimSize` key (the
source then throws a `TypeError` outside any `try`) or a `DimSize` whose first
three whitespace-separated tokens are not plain decimal naturals (the source
would then propagate JavaScript `NaN` arithmetic, which no claim exercises). -/
def parseRawData (buffer : List Nat) (header : List (List Char × List Char)) :
    Option RawOutcome := do
  let isBigEndian := hLookup header (str "BinaryDataByteOrderMSB") == some (str "True")
  let dimv ← hLookup header (str "DimSize")
  let (d0, d1, d2) ← parseDims dimv
  let expectedCount := d0 * d1 * d2
  let t := hLookup header (str "ElementType")
  let step := getTypeSize t
  if knownType t then
    let warned := decide (buffer.length < expectedCount * step)
    match readSeq buffer 0 step (!isBigEndian) expectedCount with
    | some data => pure (.success data warned)
    | none => pure (.readFault warned)
  else
    pure .unsupportedType

/-- Discriminator: did decode return a data array? -/
def producesGrid (r : Option RawOutcome) : Bool :=
  match r with
  | some (.success _ _) => true
  | _ => false

theorem getTypeSize_pos (t : Option (List Char)) (h : knownType t = true) :
    0 < getTypeSize t := by
  cases t with
  | none => simp [knownType] at h
  | some v =>
    simp only [knownType, Bool.or_eq_true, decide_eq_true_eq] at h
    rcases h with ((((((h | h) | h) | h) | h) | h) | h) | h <;> subst h <;> decide

theorem readSeq_short (buffer : List Nat) (width : Nat) (le : Bool) :
    ∀ count offset, buffer.length < offset + count * width → 0 < count →
      readSeq buffer offset width le count = none := by
  intro count
  induction count with
  | zero => intro offset _ hc; exact absurd hc (by omega)
  | succ n ih =>
    intro offset hshort _
    have hdist : offset + (n + 1) * width = offset + width + n * width := by ring
    rw [hdist] at hshort
    by_cases hfirst : offset + width ≤ buffer.length
    · have hn : 0 < n := by
        rcases Nat.eq_zero_or_pos n with h0 | h0
        · subst h0; simp at hshort; omega
        · exact h0
      simp only [readSeq, readElem, if_pos hfirst, Option.bind_eq_bind,
        Option.some_bind]
      rw [ih (offset + width) (by omega) hn]
      rfl
    · simp only [readSeq, readElem, if_neg hfirst, Option.bind_eq_bind,
        Option.none_bind]

/-- C2 (amended): when the binary buffer is strictly shorter than
`expectedCount * byteWidth`, decode logs the size-mismatch warning but then
the first element read that would pass the end of the buffer raises a caught
error, so decode returns null — no result grid — and never completes an
out-of-bounds read. -/
theorem short_buffer_warns_but_no_grid (buffer : List Nat)
    (header : List (List Char × List Char)) (dimv : List Char)
    (d0 d1 d2 : Nat)
    (hdim : hLookup header (str "DimSize") = some dimv)
    (hdims : parseDims dimv = some (d0, d1, d2))
    (hknown : knownType (hLookup header (str "ElementType")) = true)
    (hshort : buffer.length <
      d0 * d1 * d2 * getTypeSize (hLookup header (str "ElementType"))) :
    parseRawData buffer header = some (.readFault true) := by
  have hstep : 0 < getTypeSize (hLookup header (str "ElementType")) :=
    getTypeSize_pos _ hknown
  have hcount : 0 < d0 * d1 * d2 := by
    rcases Nat.eq_zero_or_pos (d0 * d1 * d2) with h0 | h0
    · rw [h0] at hshort; omega
    · exact h0
  simp only [parseRawData, hdim, hdims, Option.bind_eq_bind, Option.some_bind,
    if_pos hknown]
  rw [readSeq_short buffer _ _ _ 0 (by omega) hcount]
  simp [hshort]

/-- C2 counterexample: a `1 1 1` MET_FLOAT grid needs 4 bytes; decoding a
3-byte buffer records the size warning (`warned = true`) yet produces no
result grid (the caught read fault returns null), contradicting the claim
that decode still produces a result grid. -/
theorem short_buffer_counterexample :
    parseRawData [0, 0, 0]
        (parseHeader (str "DimSize = 1 1 1\r\nElementType = MET_FLOAT")) =
      some (.readFault true) ∧
    producesGrid (parseRawData [0, 0, 0]
        (parseHeader (str "DimSize = 1 1 1\r\nElementType = MET_FLOAT"))) = false := by
  decide

/-- C9: a header whose `ElementType` is not one of the eight known tokens
(`MET_UCHAR`, `MET_CHAR`, `MET_USHORT`, `MET_SHORT`, `MET_UINT`, `MET_INT`,
`MET_FLOAT`, `MET_DOUBLE`) makes decode report the unsupported-element-type
error and return null — no output grid and no silently substituted default
codec. -/
theorem unsupported_type_rejected (buffer : List Nat)
    (header : List (List Char × List Char)) (dimv : List Char)
    (dims : Nat × Nat × Nat)
    (hdim : hLookup header (str "DimSize") = some dimv)
    (hdims : parseDims dimv = some dims)
    (hunknown : knownType (hLookup header (str "ElementType")) = false) :
    parseRawData buffer header = some .unsupportedType ∧
      producesGrid (parseRawData buffer header) = false := by
  obtain ⟨d0, d1, d2⟩ := dims
  have h : parseRawData buffer header = some .unsupportedType := by
    simp only [parseRawData, hdim, hdims, Option.bind_eq_bind, Option.some_bind,
      hunknown, Bool.false_eq_true, if_false]
    rfl
  exact ⟨h, by rw [h]; rfl⟩

/-- C9 witness: a `MET_UNKNOWN` element type is rejected. -/
theorem unsupported_type_rejected_witness :
    parseRawData [1, 2, 3, 4]
        (parseHeader (str "DimSize = 2 2 2\r\nElementType = MET_UNKNOWN")) =
      some .unsupportedType ∧
    producesGrid (parseRawData [1, 2, 3, 4]
        (parseHeader (str "DimSize = 2 2 2\r\nElementType = MET_UNKNOWN"))) = false :=
  unsupported_type_rejected [1, 2, 3, 4] _ (str "2 2 2") (2, 2, 2)
    (by decide) (by decide) (by decide)

/-- C2 witness: the amended short-buffer theorem evaluated at the concrete
3-byte buffer for a 4-byte MET_FLOAT grid. -/
theorem short_buffer_warns_but_no_grid_witness :
    parseRawData [9, 9, 9]
        (parseHeader (str "DimSize = 1 1 1\r\nElementType = MET_FLOAT")) =
      some (.readFault true) :=
  short_buffer_warns_but_no_grid [9, 9, 9] _ (str "1 1 1") 1 1 1
    (by decide) (by decide) (by decide) (by decide)

/-! ## Dose synthesis: `EasingFunctions` and
`RadiationSceneManager.calculateDoseAtPoint`

JavaScript numbers are modelled as real numbers.  The single non-finite value
reachable in this code path is the `NaN` produced by `0 / 0` when a source has
radius zero and the evaluated point sits exactly on it (`d <= r` with
`d = r = 0`); it is modelled as `none` in an `Option ℝ`.  Propagating `none`
through the easing formulas and the accumulating sum is faithful because every
easing formula maps `NaN` to `NaN` (comparisons against `NaN` take their
`else` branch, whose arithmetic still propagates `NaN`) and `NaN` is absorbing
for addition. -/

section DoseModel

open scoped Classical

/-- 3D vector in editor/world space. -/
structure Vec3 where
  x : ℝ
  y : ℝ
  z : ℝ

/-- `THREE.Vector3.distanceTo`: the Euclidean distance. -/
noncomputable def dist3 (a b : Vec3) : ℝ :=
  Real.sqrt ((a.x - b.x) ^ 2 + (a.y - b.y) ^ 2 + (a.z - b.z) ^ 2)

/-- A radiation source as read by `calculateDoseAtPoint`: `radius` is
`s.data.mesh.scale.x`, which the GUI and deserializer keep equal to the
declared radius (`mesh.scale.setScalar(radius)`). -/
structure Source where
  position : Vec3
  radius : ℝ
  doseCenter : ℝ
  dosePeriphery : ℝ
  falloff : String

/-- The `EasingFunctions` table of `RadiationSceneManager`, each entry the
exact formula of the source (`Math.pow` with real exponent is `Real.rpow`,
integer-exponent powers are monoid powers). -/
noncomputable def EasingFunctions : List (String × (ℝ → ℝ)) := [
  ("Linear", fun t => t),
  ("InSine", fun t => 1 - Real.cos ((t * Real.pi) / 2)),
  ("OutSine", fun t => Real.sin ((t * Real.pi) / 2)),
  ("InOutSine", fun t => -(Real.cos (Real.pi * t) - 1) / 2),
  ("InQuad", fun t => t * t),
  ("OutQuad", fun t => 1 - (1 - t) * (1 - t)),
  ("InOutQuad", fun t => if t < 0.5 then 2 * t * t else 1 - (-2 * t + 2) ^ 2 / 2),
  ("InCubic", fun t => t * t * t),
  ("OutCubic", fun t => 1 - (1 - t) ^ 3),
  ("InExpo", fun t => if t = 0 then 0 else (2 : ℝ) ^ (10 * t - 10)),
  ("OutExpo", fun t => if t = 1 then 1 else 1 - (2 : ℝ) ^ (-10 * t)),
  ("InCirc", fun t => 1 - Real.sqrt (1 - t ^ 2)),
  ("OutCirc", fun t => Real.sqrt (1 - (t - 1) ^ 2))]

/-- The own-property layer of the bracket lookup `EasingFunctions[name]`: the
thirteen entries of the object literal itself.  The full JavaScript lookup
also finds the properties a plain object inherits from `Object.prototype`;
that layer is modelled by `bracketProp` below. -/
noncomputable def lookupEasing : List (String × (ℝ → ℝ)) → String → Option (ℝ → ℝ)
  | [], _ => none
  | (k, f) :: rest, name => if name = k then some f else lookupEasing rest name

/-- JavaScript division producing a plain real unless the denominator is zero,
in which case the result is non-finite (`NaN` for `0 / 0`, the only case
reachable under the `d <= r` guard since `0 ≤ d`). -/
noncomputable def jsDiv (a b : ℝ) : Option ℝ :=
  if b = 0 then none else some (a / b)

/-- JavaScript addition with `NaN` absorption. -/
noncomputable def jsAdd (a b : Option ℝ) : Option ℝ := do pure ((← a) + (← b))

/-- One iteration of the source loop in
`RadiationSceneManager.calculateDoseAtPoint`: when `d <= r`, compute
`t = d / r`, `alpha = (EasingFunctions[falloff] || EasingFunctions.Linear)(t)`
and add `(1 - alpha) * doseCenter + alpha * dosePeriphery` to the total;
otherwise leave the total unchanged.  The dispatch here uses the own-property
layer only, which is faithful whenever the falloff name is a table key or a
name that is truly absent from the object (no own key and nothing inherited);
`doseStepJS` below refines the dispatch with the `Object.prototype` layer for
the remaining names. -/
noncomputable def doseStep (p : Vec3) (acc : Option ℝ) (s : Source) : Option ℝ :=
  let d := dist3 p s.position
  let r := s.radius
  if d ≤ r then
    jsAdd acc ((jsDiv d r).map fun t =>
      let alpha := ((lookupEasing EasingFunctions s.falloff).getD (fun u => u)) t
      (1 - alpha) * s.doseCenter + alpha * s.dosePeriphery)
  else acc

/-- `RadiationSceneManager.calculateDoseAtPoint`: total dose starts at `0` and
accumulates over the source list. -/
noncomputable def calculateDoseAtPoint (p : Vec3) (sources : List Source) :
    Option ℝ :=
  sources.foldl (doseStep p) (some 0)

/-- The per-source dose contribution as the specification states it: zero
beyond the radius, else `(1-alpha)*doseCenter + alpha*dosePeriphery` with
`alpha = falloff(d/r)` from the easing table (for a name that is neither a
table key nor inherited from `Object.prototype`, the implementation
substitutes `Linear`; see the C10 theorems). -/
noncomputable def specContrib (p : Vec3) (s : Source) : ℝ :=
  let d := dist3 p s.position
  if d > s.radius then 0
  else
    let alpha := ((lookupEasing EasingFunctions s.falloff).getD (fun u => u))
      (d / s.radius)
    (1 - alpha) * s.doseCenter + alpha * s.dosePeriphery

theorem dist3_nonneg (a b : Vec3) : 0 ≤ dist3 a b := Real.sqrt_nonneg _

theorem dist3_eq_zero_iff (a b : Vec3) : dist3 a b = 0 ↔ a = b := by
  obtain ⟨a1, a2, a3⟩ := a
  obtain ⟨b1, b2, b3⟩ := b
  unfold dist3
  rw [Real.sqrt_eq_zero (by positivity)]
  simp only [Vec3.mk.injEq]
  constructor
  · intro h
    have e1 : a1 - b1 = 0 := by
      have hsq : (a1 - b1) ^ 2 = 0 := by
        nlinarith [sq_nonneg (a2 - b2), sq_nonneg (a3 - b3)]
      exact (pow_eq_zero_iff (by norm_num)).mp hsq
    have e2 : a2 - b2 = 0 := by
      have hsq : (a2 - b2) ^ 2 = 0 := by
        nlinarith [sq_nonneg (a1 - b1), sq_nonneg (a3 - b3)]
      exact (pow_eq_zero_iff (by norm_num)).mp hsq
    have e3 : a3 - b3 = 0 := by
      have hsq : (a3 - b3) ^ 2 = 0 := by
        nlinarith [sq_nonneg (a1 - b1), sq_nonneg (a2 - b2)]
      exact (pow_eq_zero_iff (by norm_num)).mp hsq
    exact ⟨sub_eq_zero.mp e1, sub_eq_zero.mp e2, sub_eq_zero.mp e3⟩
  · rintro ⟨h1, h2, h3⟩
    subst h1; subst h2; subst h3
    ring

/-- C3 (amended): a source with radius strictly below zero is always excluded
from dose evaluation (its loop iteration leaves the accumulated dose
unchanged, wherever it sits in the source list), and a source with radius
exactly zero is likewise excluded at every lattice point other than its own
position; no error is reported.  (At the source position itself a zero radius
is NOT excluded and yields NaN — see the counterexample.) -/
theorem degenerate_source_excluded (p : Vec3) (s : Source)
    (h : s.radius < 0 ∨ (s.radius = 0 ∧ p ≠ s.position)) :
    (∀ acc, doseStep p acc s = acc) ∧
    (∀ pre post, calculateDoseAtPoint p (pre ++ s :: post) =
      calculateDoseAtPoint p (pre ++ post)) := by
  have hd : ¬ dist3 p s.position ≤ s.radius := by
    rcases h with hneg | ⟨hzero, hne⟩
    · have := dist3_nonneg p s.position
      linarith
    · have hpos : 0 < dist3 p s.position := by
        rcases lt_or_eq_of_le (dist3_nonneg p s.position) with h' | h'
        · exact h'
        · exact absurd ((dist3_eq_zero_iff p s.position).mp h'.symm) hne
      rw [hzero]
      linarith
  have hstep : ∀ acc, doseStep p acc s = acc := by
    intro acc
    unfold doseStep
    rw [if_neg hd]
  refine ⟨hstep, ?_⟩
  intro pre post
  unfold calculateDoseAtPoint
  rw [List.foldl_append, List.foldl_append, List.foldl_cons, hstep]

/-- C3 witness: a radius `-1` source leaves the accumulated dose unchanged. -/
theorem degenerate_source_excluded_witness :
    doseStep ⟨0, 0, 0⟩ (some 0) ⟨⟨5, 0, 0⟩, -1, 100, 10, "Linear"⟩ = some 0 :=
  (degenerate_source_excluded ⟨0, 0, 0⟩ ⟨⟨5, 0, 0⟩, -1, 100, 10, "Linear"⟩
    (Or.inl (by norm_num))).1 (some 0)

/-- C3 counterexample: a source with radius exactly 0 evaluated at its own
position is NOT excluded: the guard `d <= r` holds with `d = r = 0`, the
division `0 / 0` produces NaN, and the total dose becomes NaN (`none`) instead
of the `some 0` an excluded source would give (second conjunct: the empty
source list gives dose `some 0`). -/
theorem zero_radius_nan_counterexample :
    calculateDoseAtPoint ⟨0, 0, 0⟩ [⟨⟨0, 0, 0⟩, 0, 100, 10, "Linear"⟩] = none ∧
    calculateDoseAtPoint ⟨0, 0, 0⟩ [] = some 0 := by
  constructor
  · have hd : dist3 ⟨0, 0, 0⟩ (⟨0, 0, 0⟩ : Vec3) = 0 := by
      unfold dist3
      norm_num
    simp only [calculateDoseAtPoint, List.foldl_cons, List.foldl_nil, doseStep, hd]
    norm_num [jsDiv, jsAdd]
  · rfl

/-! ### The full bracket lookup `EasingFunctions[name]`

A JavaScript object literal inherits the string-keyed members of
`Object.prototype`, and the bracket lookup finds them, so for those names the
`|| EasingFunctions.Linear` fallback does NOT fire (the inherited member is
truthy).  `RadiationSceneManager.js` is an ES module, hence strict mode, and
`(a || b)(t)` calls its callee with `this = undefined` (the `||` operator
yields a value, not a reference).  Calling the inherited member with
`this = undefined` on the number argument `t` gives, per the ECMAScript
specification:

* `constructor` — the `Object` constructor called as a function returns the
  `Number` wrapper of `t`, whose numeric coercion in the contribution
  arithmetic is `t` itself;
* `isPrototypeOf` — its first step returns `false` for a non-object argument
  (before touching `this`), and `false` coerces to `0`;
* `toString` — returns the string `"[object Undefined]"` when `this` is
  undefined; a non-numeric string, so the contribution arithmetic yields NaN;
* every other member (`hasOwnProperty`, `propertyIsEnumerable`,
  `toLocaleString`, `valueOf`, `__defineGetter__`, `__defineSetter__`,
  `__lookupGetter__`, `__lookupSetter__`) performs `ToObject(this)` on the
  undefined `this` and throws a `TypeError`; and reading `__proto__` yields
  `Object.prototype` itself, which is not callable, so the call also throws a
  `TypeError`. -/

/-- The string-keyed property names a plain object literal inherits from
`Object.prototype`. -/
def objectProtoProps : List String :=
  ["constructor", "hasOwnProperty", "isPrototypeOf", "propertyIsEnumerable",
   "toLocaleString", "toString", "valueOf", "__defineGetter__",
   "__defineSetter__", "__lookupGetter__", "__lookupSetter__", "__proto__"]

/-- Outcome of calling the `Object.prototype` member of the given name with
`this = undefined` and the (possibly NaN) number argument: `some coerce` when
the call returns, with `coerce t` the numeric coercion of the returned value
inside the contribution arithmetic (`none` = NaN); `none` when the call throws
a `TypeError`.  Only meaningful for names in `objectProtoProps`. -/
noncomputable def protoCall : String → Option (Option ℝ → Option ℝ)
  | "constructor" => some (fun t => t)
  | "isPrototypeOf" => some (fun _ => some 0)
  | "toString" => some (fun _ => none)
  | _ => none

/-- What the bracket lookup `EasingFunctions[name]` finds: an own key of the
table, a member inherited from `Object.prototype`, or nothing (`undefined`). -/
inductive BracketProp where
  | fn (f : ℝ → ℝ)
  | protoMember (name : String)
  | absent

noncomputable def bracketProp (name : String) : BracketProp :=
  match lookupEasing EasingFunctions name with
  | some f => .fn f
  | none => if name ∈ objectProtoProps then .protoMember name else .absent

/-- Applying the dispatched callee
`(EasingFunctions[falloff] || EasingFunctions.Linear)` to `t`: an own key or
the `Linear` fallback (for `undefined`, the only falsy lookup result) returns
the easing value; an inherited member returns its call outcome, `none` when
the call throws. -/
noncomputable def calleeApply : BracketProp → Option ℝ → Option (Option ℝ)
  | .fn f, t => some (t.map f)
  | .absent, t => some (t.map fun u => u)
  | .protoMember n, t => (protoCall n).map fun coerce => coerce t

/-- `doseStep` refined with the full bracket lookup.  The outer `Option`
models the thrown `TypeError` (`none` aborts the evaluation); the inner
`Option ℝ` is the accumulated dose as before (`none` = NaN). -/
noncomputable def doseStepJS (p : Vec3) (acc : Option (Option ℝ)) (s : Source) :
    Option (Option ℝ) :=
  acc.bind fun a =>
    let d := dist3 p s.position
    let r := s.radius
    if d ≤ r then
      (calleeApply (bracketProp s.falloff) (jsDiv d r)).map fun alpha =>
        jsAdd a (alpha.map fun x => (1 - x) * s.doseCenter + x * s.dosePeriphery)
    else some a

/-- `calculateDoseAtPoint` under the full bracket-lookup model. -/
noncomputable def calculateDoseAtPointJS (p : Vec3) (sources : List Source) :
    Option (Option ℝ) :=
  sources.foldl (doseStepJS p) (some (some 0))

/-- C10 counterexample: `"toString"` is not a key of the easing table (third
conjunct), yet a source with that falloff is NOT evaluated as if it were
`Linear`: the bracket lookup finds the inherited `Object.prototype.toString`,
whose call returns the non-numeric string `"[object Undefined]"`, and the dose
becomes NaN (`some none`) instead of the `some (some 100)` the same source
with `Linear` falloff produces. -/
theorem inherited_falloff_counterexample :
    calculateDoseAtPointJS ⟨0, 0, 0⟩ [⟨⟨0, 0, 0⟩, 5, 100, 10, "toString"⟩] =
      some none ∧
    calculateDoseAtPointJS ⟨0, 0, 0⟩ [⟨⟨0, 0, 0⟩, 5, 100, 10, "Linear"⟩] =
      some (some 100) ∧
    lookupEasing EasingFunctions "toString" = none := by
  have hd : dist3 ⟨0, 0, 0⟩ (⟨0, 0, 0⟩ : Vec3) = 0 := by
    unfold dist3
    norm_num
  have hdiv : jsDiv 0 5 = some 0 := by
    unfold jsDiv
    norm_num
  refine ⟨?_, ?_, rfl⟩
  · have hbr : bracketProp "toString" = .protoMember "toString" := rfl
    simp only [calculateDoseAtPointJS, List.foldl_cons, List.foldl_nil,
      doseStepJS, Option.some_bind, hd, hbr]
    rw [if_pos (by norm_num : (0 : ℝ) ≤ 5), hdiv]
    rfl
  · have hbr : bracketProp "Linear" = .fn (fun t : ℝ => t) := rfl
    simp only [calculateDoseAtPointJS, List.foldl_cons, List.foldl_nil,
      doseStepJS, Option.some_bind, hd, hbr]
    rw [if_pos (by norm_num : (0 : ℝ) ≤ 5), hdiv]
    simp only [calleeApply, Option.map_some, Option.some.injEq, jsAdd,
      Option.bind_eq_bind, Option.some_bind]
    norm_num

/-- C10 (amended): a source whose falloff name is neither a key of the easing
table nor one of the property names a plain object inherits from
`Object.prototype` is evaluated with no failure, exactly as if its falloff
were `Linear`: the bracket lookup yields `undefined` and the `||` fallback
silently substitutes `EasingFunctions.Linear` at evaluation time.  (For an
inherited name the lookup instead finds the `Object.prototype` member — see
the counterexample.) -/
theorem absent_falloff_uses_linear (p : Vec3) (a : Option ℝ) (s : Source)
    (h1 : lookupEasing EasingFunctions s.falloff = none)
    (h2 : s.falloff ∉ objectProtoProps) :
    doseStepJS p (some a) s =
      some (doseStep p a
        ⟨s.position, s.radius, s.doseCenter, s.dosePeriphery, "Linear"⟩) := by
  have hbr : bracketProp s.falloff = .absent := by
    unfold bracketProp
    rw [h1, if_neg h2]
  have hlin : lookupEasing EasingFunctions "Linear" = some (fun t : ℝ => t) := rfl
  unfold doseStepJS doseStep
  rw [Option.some_bind, hbr, hlin]
  by_cases hdr : dist3 p s.position ≤ s.radius
  · rw [if_pos hdr, if_pos hdr]
    cases jsDiv (dist3 p s.position) s.radius with
    | none => rfl
    | some t => rfl
  · rw [if_neg hdr, if_neg hdr]

/-- C10 witness: a falloff name `Bogus` (no own key, nothing inherited)
evaluates with the `Linear` fallback. -/
theorem absent_falloff_uses_linear_witness :
    doseStepJS ⟨0, 0, 0⟩ (some (some 0)) ⟨⟨0, 0, 0⟩, 5, 100, 10, "Bogus"⟩ =
      some (doseStep ⟨0, 0, 0⟩ (some 0) ⟨⟨0, 0, 0⟩, 5, 100, 10, "Linear"⟩) :=
  absent_falloff_uses_linear ⟨0, 0, 0⟩ (some 0) ⟨⟨0, 0, 0⟩, 5, 100, 10, "Bogus"⟩
    rfl (by decide)

/-- C8: every falloff kind of the easing table satisfies `falloff 0 = 0` and
`falloff 1 = 1` — exactly, in the real-number model; in particular `InExpo`
(special-cased at `t = 0`) yields exactly `0` there and `OutExpo`
(special-cased at `t = 1`) yields exactly `1` there. -/
theorem falloff_boundary_values :
    ∀ e ∈ EasingFunctions, e.2 0 = 0 ∧ e.2 1 = 1 := by
  intro e he
  simp only [EasingFunctions, List.mem_cons, List.not_mem_nil, or_false] at he
  rcases he with rfl | rfl | rfl | rfl | rfl | rfl | rfl | rfl | rfl | rfl | rfl |
    rfl | rfl <;>
    refine ⟨by norm_num, by norm_num⟩

/-- C8 witness: the boundary values evaluated for the `Linear` kind. -/
theorem falloff_boundary_values_witness :
    (("Linear", fun t : ℝ => t) : String × (ℝ → ℝ)).2 0 = 0 ∧
    (("Linear", fun t : ℝ => t) : String × (ℝ → ℝ)).2 1 = 1 :=
  falloff_boundary_values ("Linear", fun t : ℝ => t)
    (by unfold EasingFunctions; exact List.mem_cons_self _ _)

theorem doseStep_some (p : Vec3) (s : Source) (hr : 0 < s.radius) (a : ℝ) :
    doseStep p (some a) s = some (a + specContrib p s) := by
  unfold doseStep specContrib
  by_cases hd : dist3 p s.position ≤ s.radius
  · rw [if_pos hd, if_neg (not_lt.mpr hd)]
    unfold jsDiv
    rw [if_neg (ne_of_gt hr)]
    simp [jsAdd]
  · rw [if_neg hd, if_pos (lt_of_not_le hd)]
    simp

theorem foldl_doseStep_sum (p : Vec3) :
    ∀ (sources : List Source), (∀ s ∈ sources, 0 < s.radius) →
      ∀ a : ℝ, sources.foldl (doseStep p) (some a) =
        some (a + (sources.map (specContrib p)).sum)
  | [], _, a => by simp
  | s :: rest, h, a => by
    have hr : 0 < s.radius := h s (by simp)
    have hrest : ∀ s' ∈ rest, 0 < s'.radius :=
      fun s' hs' => h s' (List.mem_cons_of_mem _ hs')
    simp only [List.foldl_cons, doseStep_some p s hr a, List.map_cons, List.sum_cons]
    rw [foldl_doseStep_sum p rest hrest (a + specContrib p s)]
    exact congrArg some (by ring)

theorem calculateDoseAtPoint_eq_sum (p : Vec3) (sources : List Source)
    (h : ∀ s ∈ sources, 0 < s.radius) :
    calculateDoseAtPoint p sources = some ((sources.map (specContrib p)).sum) := by
  unfold calculateDoseAtPoint
  rw [foldl_doseStep_sum p sources h 0]
  exact congrArg some (by ring)

/-- The single source of the spec's concrete scenario: position `(10,0,0)`,
radius 10, doseCenter 100, dosePeriphery 0, Linear falloff. -/
noncomputable def linearRowSource : Source := ⟨⟨10, 0, 0⟩, 10, 100, 0, "Linear"⟩

theorem radius_linearRowSource : ∀ s ∈ [linearRowSource], 0 < s.radius := by
  intro s hs
  rw [List.mem_singleton] at hs
  subst hs
  norm_num [linearRowSource]

theorem specContrib_row_left : specContrib ⟨0, 0, 0⟩ linearRowSource = 0 := by
  have hd : dist3 ⟨0, 0, 0⟩ (⟨10, 0, 0⟩ : Vec3) = 10 := by
    unfold dist3
    rw [show ((0 : ℝ) - 10) ^ 2 + ((0 : ℝ) - 0) ^ 2 + ((0 : ℝ) - 0) ^ 2 = 10 ^ 2 by
      norm_num]
    exact Real.sqrt_sq (by norm_num)
  have hlin : lookupEasing EasingFunctions "Linear" = some (fun t : ℝ => t) := rfl
  unfold specContrib linearRowSource
  simp only [hd, hlin]
  norm_num

theorem specContrib_row_center : specContrib ⟨10, 0, 0⟩ linearRowSource = 100 := by
  have hd : dist3 ⟨10, 0, 0⟩ (⟨10, 0, 0⟩ : Vec3) = 0 := by
    unfold dist3
    norm_num
  have hlin : lookupEasing EasingFunctions "Linear" = some (fun t : ℝ => t) := rfl
  unfold specContrib linearRowSource
  simp only [hd, hlin]
  norm_num

theorem specContrib_row_right : specContrib ⟨20, 0, 0⟩ linearRowSource = 0 := by
  have hd : dist3 ⟨20, 0, 0⟩ (⟨10, 0, 0⟩ : Vec3) = 10 := by
    unfold dist3
    rw [show ((20 : ℝ) - 10) ^ 2 + ((0 : ℝ) - 0) ^ 2 + ((0 : ℝ) - 0) ^ 2 = 10 ^ 2 by
      norm_num]
    exact Real.sqrt_sq (by norm_num)
  have hlin : lookupEasing EasingFunctions "Linear" = some (fun t : ℝ => t) := rfl
  unfold specContrib linearRowSource
  simp only [hd, hlin]
  norm_num

/-- C4: for sources of positive radius the synthesized dose at a point is the
sum over all sources of `0` beyond the radius, else
`(1-alpha)*doseCenter + alpha*dosePeriphery` with `alpha = falloff(d/r)`; for
the concrete scenario (spacing-10 row at x = 0, 10, 20, one Linear source at
`(10,0,0)` with radius 10, doseCenter 100, dosePeriphery 0) the three lattice
doses are `[0, 100, 0]`. -/
theorem dose_superposition_formula :
    (∀ (p : Vec3) (sources : List Source), (∀ s ∈ sources, 0 < s.radius) →
      calculateDoseAtPoint p sources = some ((sources.map (specContrib p)).sum)) ∧
    calculateDoseAtPoint ⟨0, 0, 0⟩ [linearRowSource] = some 0 ∧
    calculateDoseAtPoint ⟨10, 0, 0⟩ [linearRowSource] = some 100 ∧
    calculateDoseAtPoint ⟨20, 0, 0⟩ [linearRowSource] = some 0 := by
  refine ⟨calculateDoseAtPoint_eq_sum, ?_, ?_, ?_⟩
  · rw [calculateDoseAtPoint_eq_sum _ _ radius_linearRowSource]
    simp [specContrib_row_left]
  · rw [calculateDoseAtPoint_eq_sum _ _ radius_linearRowSource]
    simp [specContrib_row_center]
  · rw [calculateDoseAtPoint_eq_sum _ _ radius_linearRowSource]
    simp [specContrib_row_right]

/-- C4 witness: the superposition formula applied to the concrete scenario's
source list at the lattice origin. -/
theorem dose_superposition_formula_witness :
    calculateDoseAtPoint ⟨0, 0, 0⟩ [linearRowSource] =
      some (([linearRowSource].map (specContrib ⟨0, 0, 0⟩)).sum) :=
  dose_superposition_formula.1 ⟨0, 0, 0⟩ [linearRowSource] radius_linearRowSource

/-! ## Export geometry: `RadiationSceneManager.exportGateFiles`

The editor declares `domainSize`, `voxelResolution` and `offset` in editor
axis order; the export permutes the second and third axes into target-format
(GATE) order for the header fields, derives spacing as domain extent divided
by voxel count, and permutes each generated lattice coordinate back to editor
order before evaluating the dose sources. -/

/-- The editor's `simulationConfig`. -/
structure SimConfig where
  domainSize : Vec3
  voxelResolution : Vec3
  offset : Vec3

/-- The axis transposition of the coordinate mapper on a homogeneous triple:
swap the second and third components (its own inverse). -/
def swapYZ {α : Type} (v : α × α × α) : α × α × α := (v.1, v.2.2, v.2.1)

/-- `DimSize` written by the export: `floor` of the resolution, with the
second and third axes swapped (`dimGateY = floor(res.z)`,
`dimGateZ = floor(res.y)`). -/
noncomputable def exportDims (conf : SimConfig) : ℤ × ℤ × ℤ :=
  (⌊conf.voxelResolution.x⌋, ⌊conf.voxelResolution.z⌋, ⌊conf.voxelResolution.y⌋)

/-- `ElementSpacing` written by the export: each domain extent divided by the
matching voxel count, in gate order. -/
noncomputable def exportSpacing (conf : SimConfig) : ℝ × ℝ × ℝ :=
  (conf.domainSize.x / (⌊conf.voxelResolution.x⌋ : ℝ),
   conf.domainSize.z / (⌊conf.voxelResolution.z⌋ : ℝ),
   conf.domainSize.y / (⌊conf.voxelResolution.y⌋ : ℝ))

/-- `Offset` written by the export header:
`conf.offset.x conf.offset.z conf.offset.y`. -/
def exportOffsetHeader (conf : SimConfig) : ℝ × ℝ × ℝ :=
  (conf.offset.x, conf.offset.z, conf.offset.y)

/-- `totalVoxels = dimGateX * dimGateY * dimGateZ`. -/
noncomputable def totalVoxels (conf : SimConfig) : ℤ :=
  (exportDims conf).1 * (exportDims conf).2.1 * (exportDims conf).2.2

/-- The world position evaluated for lattice index `(i, j, k)` in the export
loop: `worldPos.x = offset.x + i*spacingX`, `worldPos.y = offset.y +
k*spacingZ`, `worldPos.z = offset.z + j*spacingY`. -/
noncomputable def exportVoxelCenter (conf : SimConfig) (i j k : ℕ) : Vec3 :=
  ⟨conf.offset.x + i * (exportSpacing conf).1,
   conf.offset.y + k * (exportSpacing conf).2.2,
   conf.offset.z + j * (exportSpacing conf).2.1⟩

/-- The lattice point of index `(i, j, k)` in target-format coordinates, as
the header declares it: header offset plus index times header spacing,
component-wise, with `i` on the first header axis, `j` on the second and `k`
on the third. -/
noncomputable def gateLattice (conf : SimConfig) (i j k : ℕ) : ℝ × ℝ × ℝ :=
  ((exportOffsetHeader conf).1 + i * (exportSpacing conf).1,
   (exportOffsetHeader conf).2.1 + j * (exportSpacing conf).2.1,
   (exportOffsetHeader conf).2.2 + k * (exportSpacing conf).2.2)

/-- The dose written into the export buffer for lattice index `(i, j, k)`. -/
noncomputable def exportDoseAt (conf : SimConfig) (sources : List Source)
    (i j k : ℕ) : Option ℝ :=
  calculateDoseAtPoint (exportVoxelCenter conf i j k) sources

/-- Editor-order voxel counts (spec side). -/
noncomputable def editorCounts (conf : SimConfig) : ℤ × ℤ × ℤ :=
  (⌊conf.voxelResolution.x⌋, ⌊conf.voxelResolution.y⌋, ⌊conf.voxelResolution.z⌋)

/-- Editor-order derived spacing (spec side): each `domainSize` component
divided by the corresponding voxel count. -/
noncomputable def editorDerivedSpacing (conf : SimConfig) : ℝ × ℝ × ℝ :=
  (conf.domainSize.x / (⌊conf.voxelResolution.x⌋ : ℝ),
   conf.domainSize.y / (⌊conf.voxelResolution.y⌋ : ℝ),
   conf.domainSize.z / (⌊conf.voxelResolution.z⌋ : ℝ))

/-- Editor-order offset triple (spec side). -/
def editorOffsetTriple (conf : SimConfig) : ℝ × ℝ × ℝ :=
  (conf.offset.x, conf.offset.y, conf.offset.z)

/-- The concrete export scenario: `domainSize = (100,50,100)`,
`voxelCount = (10,5,10)`, offset 0. -/
noncomputable def demoConfig : SimConfig :=
  ⟨⟨100, 50, 100⟩, ⟨10, 5, 10⟩, ⟨0, 0, 0⟩⟩

/-- C5: the export header's `DimSize`, `ElementSpacing` and `Offset` are the
editor-order counts, derived spacings (`domainSize` component over matching
count) and offsets with the second and third axes swapped; every generated
lattice coordinate is the gate-order lattice point permuted back to editor
order before dose evaluation; and the concrete scenario
`domainSize = (100,50,100)`, `voxelCount = (10,5,10)` derives spacing
`(10,10,10)` after permutation, with 500 voxels in total. -/
theorem export_axis_permutation :
    (∀ conf : SimConfig,
      exportDims conf = swapYZ (editorCounts conf) ∧
      exportSpacing conf = swapYZ (editorDerivedSpacing conf) ∧
      exportOffsetHeader conf = swapYZ (editorOffsetTriple conf) ∧
      (∀ i j k : ℕ,
        (exportVoxelCenter conf i j k).x = (swapYZ (gateLattice conf i j k)).1 ∧
        (exportVoxelCenter conf i j k).y = (swapYZ (gateLattice conf i j k)).2.1 ∧
        (exportVoxelCenter conf i j k).z = (swapYZ (gateLattice conf i j k)).2.2) ∧
      (∀ (sources : List Source) (i j k : ℕ),
        exportDoseAt conf sources i j k =
          calculateDoseAtPoint
            ⟨(swapYZ (gateLattice conf i j k)).1,
             (swapYZ (gateLattice conf i j k)).2.1,
             (swapYZ (gateLattice conf i j k)).2.2⟩ sources)) ∧
    exportSpacing demoConfig = (10, 10, 10) ∧
    totalVoxels demoConfig = 500 := by
  have hfloor10 : ⌊(10 : ℝ)⌋ = 10 := by
    rw [show (10 : ℝ) = ((10 : ℤ) : ℝ) by norm_num, Int.floor_intCast]
  have hfloor5 : ⌊(5 : ℝ)⌋ = 5 := by
    rw [show (5 : ℝ) = ((5 : ℤ) : ℝ) by norm_num, Int.floor_intCast]
  refine ⟨?_, ?_, ?_⟩
  · intro conf
    refine ⟨rfl, rfl, rfl, ?_, ?_⟩
    · intro i j k
      exact ⟨rfl, rfl, rfl⟩
    · intro sources i j k
      rfl
  · unfold exportSpacing demoConfig
    simp only [hfloor10, hfloor5]
    norm_num
  · unfold totalVoxels exportDims demoConfig
    simp only [hfloor10, hfloor5]
    norm_num

end DoseModel

/-! ## Header serialization: the `mhdContent` template of
`RadiationSceneManager.exportGateFiles`, and its round trip through
`MHDHandler.parseHeader`.

The numeric header fields are serialized with JavaScript number-to-string
interpolation; a rendered number token is a non-empty run of characters none
of which is whitespace or `=`.  `DimSize` entries are integer-valued, rendered
in plain decimal (`renderNat`). -/

/-- A well-formed rendered number token: non-empty, no whitespace, no `=`
(every JavaScript number rendering satisfies this). -/
def tokenOk (t : List Char) : Bool :=
  !t.isEmpty && t.all fun c => !(isWs c) && !(c == '=')

theorem isEmpty_false_of_ne_nil {α : Type} (l : List α) (h : l ≠ []) :
    l.isEmpty = false := by
  cases l with
  | nil => exact absurd rfl h
  | cons a t => rfl

theorem tokenOk_spec (t : List Char) (h : tokenOk t = true) :
    t ≠ [] ∧ ∀ c ∈ t, isWs c = false ∧ c ≠ '=' := by
  unfold tokenOk at h
  simp only [Bool.and_eq_true, List.all_eq_true] at h
  obtain ⟨h1, h2⟩ := h
  constructor
  · intro hnil
    subst hnil
    simp at h1
  · intro c hc
    have hcc := h2 c hc
    simp only [Bool.and_eq_true, Bool.not_eq_true'] at hcc
    exact ⟨hcc.1, by simpa using hcc.2⟩

theorem splitLinesAux_cons (c : Char) (cs acc : List Char)
    (h1 : c ≠ '\r') (h2 : c ≠ '\n') :
    splitLinesAux (c :: cs) acc = splitLinesAux cs (c :: acc) := by
  rw [splitLinesAux.eq_def]
  split <;> simp_all

theorem splitLinesAux_break (line : List Char)
    (h : ∀ c ∈ line, c ≠ '\n' ∧ c ≠ '\r') :
    ∀ (rest acc : List Char),
      splitLinesAux (line ++ '\r' :: '\n' :: rest) acc =
        (acc.reverse ++ line) :: splitLinesAux rest [] := by
  induction line with
  | nil => intro rest acc; simp [splitLinesAux]
  | cons c cs ih =>
    intro rest acc
    have hc := h c (by simp)
    have hcs : ∀ x ∈ cs, x ≠ '\n' ∧ x ≠ '\r' :=
      fun x hx => h x (List.mem_cons_of_mem _ hx)
    rw [List.cons_append, splitLinesAux_cons c _ _ hc.2 hc.1, ih hcs rest (c :: acc)]
    simp

theorem splitLinesAux_last (line : List Char)
    (h : ∀ c ∈ line, c ≠ '\n' ∧ c ≠ '\r') :
    ∀ acc : List Char, splitLinesAux line acc = [acc.reverse ++ line] := by
  induction line with
  | nil => intro acc; simp [splitLinesAux]
  | cons c cs ih =>
    intro acc
    have hc := h c (by simp)
    have hcs : ∀ x ∈ cs, x ≠ '\n' ∧ x ≠ '\r' :=
      fun x hx => h x (List.mem_cons_of_mem _ hx)
    rw [splitLinesAux_cons c _ _ hc.2 hc.1, ih hcs (c :: acc)]
    simp

/-- `Array.prototype.join` with the CRLF separator used by the export. -/
def joinCRLF : List (List Char) → List Char
  | [] => []
  | [l] => l
  | l :: rest => l ++ '\r' :: '\n' :: joinCRLF rest

theorem splitLines_joinCRLF (lines : List (List Char))
    (h : ∀ l ∈ lines, ∀ c ∈ l, c ≠ '\n' ∧ c ≠ '\r') (hne : lines ≠ []) :
    splitLines (joinCRLF lines) = lines := by
  induction lines with
  | nil => exact absurd rfl hne
  | cons l rest ih =>
    cases rest with
    | nil =>
      unfold splitLines joinCRLF
      rw [splitLinesAux_last l (h l (by simp)) []]
      simp
    | cons l2 rest2 =>
      have hl := h l (by simp)
      have hrest : ∀ l' ∈ l2 :: rest2, ∀ c ∈ l', c ≠ '\n' ∧ c ≠ '\r' :=
        fun l' hl' => h l' (List.mem_cons_of_mem _ hl')
      unfold splitLines joinCRLF
      rw [splitLinesAux_break l hl _ []]
      exact congrArg (l :: ·) (ih hrest (by simp))

theorem splitOnChar_no_sep (sep : Char) (l : List Char) (h : ∀ c ∈ l, c ≠ sep) :
    splitOnChar sep l = [l] := by
  induction l with
  | nil => rfl
  | cons c t ih =>
    have hc := h c (by simp)
    have ht : ∀ x ∈ t, x ≠ sep := fun x hx => h x (List.mem_cons_of_mem _ hx)
    simp only [splitOnChar, if_neg hc]
    rw [ih ht]

theorem splitOnChar_append (sep : Char) (k v : List Char)
    (hk : ∀ c ∈ k, c ≠ sep) :
    splitOnChar sep (k ++ sep :: v) = k :: splitOnChar sep v := by
  induction k with
  | nil => simp [splitOnChar]
  | cons c t ih =>
    have hc := hk c (by simp)
    have ht : ∀ x ∈ t, x ≠ sep := fun x hx => hk x (List.mem_cons_of_mem _ hx)
    rw [List.cons_append]
    simp only [splitOnChar, if_neg hc]
    rw [ih ht]

theorem dropWhile_eq_self_of_head (p : Char → Bool) (w : List Char)
    (h : ∀ c t, w = c :: t → p c = false) : w.dropWhile p = w := by
  cases w with
  | nil => rfl
  | cons c t => simp [List.dropWhile_cons, h c t rfl]

theorem trim_eq_self (w : List Char)
    (hh : ∀ c t, w = c :: t → isWs c = false)
    (hl : ∀ c t, w.reverse = c :: t → isWs c = false) :
    trim w = w := by
  unfold trim
  rw [dropWhile_eq_self_of_head _ _ hh, dropWhile_eq_self_of_head _ _ hl,
    List.reverse_reverse]

theorem trim_cons_space (w : List Char) : trim (' ' :: w) = trim w := by
  unfold trim
  rw [List.dropWhile_cons]
  norm_num [isWs]

theorem dropWhile_concat_ne_nil (p : Char → Bool) (xs : List Char) (x : Char)
    (hx : p x = false) : (xs ++ [x]).dropWhile p ≠ [] := by
  induction xs with
  | nil => simp [List.dropWhile_cons, hx]
  | cons y ys ih =>
    rw [List.cons_append, List.dropWhile_cons]
    split
    · exact ih
    · simp

theorem trim_isEmpty_false_of_head (c : Char) (t : List Char)
    (hc : isWs c = false) : (trim (c :: t)).isEmpty = false := by
  unfold trim
  rw [List.dropWhile_cons, if_neg (by simp [hc]), List.reverse_cons]
  apply isEmpty_false_of_ne_nil
  rw [ne_eq, List.reverse_eq_nil_iff]
  exact dropWhile_concat_ne_nil isWs t.reverse c hc

theorem splitWsGo_false_token (tok : List Char) (h : ∀ c ∈ tok, isWs c = false) :
    ∀ (rest acc : List Char),
      splitWsGo false (tok ++ ' ' :: rest) acc =
        (acc.reverse ++ tok) :: splitWsGo true rest [] := by
  induction tok with
  | nil =>
    intro rest acc
    simp [splitWsGo, show isWs ' ' = true from rfl]
  | cons c cs ih =>
    intro rest acc
    have hc : isWs c = false := h c (by simp)
    have hcs : ∀ x ∈ cs, isWs x = false := fun x hx => h x (List.mem_cons_of_mem _ hx)
    rw [List.cons_append]
    simp only [splitWsGo, hc, Bool.false_eq_true, if_false]
    rw [ih hcs rest (c :: acc)]
    simp

theorem splitWsGo_false_last (tok : List Char) (h : ∀ c ∈ tok, isWs c = false) :
    ∀ acc : List Char, splitWsGo false tok acc = [acc.reverse ++ tok] := by
  induction tok with
  | nil => intro acc; simp [splitWsGo]
  | cons c cs ih =>
    intro acc
    have hc : isWs c = false := h c (by simp)
    have hcs : ∀ x ∈ cs, isWs x = false := fun x hx => h x (List.mem_cons_of_mem _ hx)
    simp only [splitWsGo, hc, Bool.false_eq_true, if_false]
    rw [ih hcs (c :: acc)]
    simp

theorem splitWsGo_true_head (w : List Char) (acc : List Char)
    (h : ∀ c t, w = c :: t → isWs c = false) :
    splitWsGo true w acc = splitWsGo false w acc := by
  cases w with
  | nil => rfl
  | cons c t => simp [splitWsGo, h c t rfl]

theorem splitWs_triple (a b c : List Char)
    (ha : ∀ x ∈ a, isWs x = false) (hb : ∀ x ∈ b, isWs x = false)
    (hc : ∀ x ∈ c, isWs x = false) (hbne : b ≠ []) (hcne : c ≠ []) :
    splitWs (a ++ ' ' :: (b ++ ' ' :: c)) = [a, b, c] := by
  obtain ⟨b0, bt, rfl⟩ := List.exists_cons_of_ne_nil hbne
  obtain ⟨c0, ct, rfl⟩ := List.exists_cons_of_ne_nil hcne
  unfold splitWs
  rw [splitWsGo_false_token a ha _ []]
  rw [splitWsGo_true_head _ [] (by
    intro c' t' hEq
    rw [List.cons_append] at hEq
    injection hEq with h1 _
    exact h1 ▸ hb b0 (by simp))]
  rw [splitWsGo_false_token _ hb _ []]
  rw [splitWsGo_true_head _ [] (by
    intro c' t' hEq
    injection hEq with h1 _
    exact h1 ▸ hc c0 (by simp))]
  rw [splitWsGo_false_last _ hc []]
  simp

theorem digitChar_facts :
    ∀ d, d < 10 → digitVal (digitChar d) = d ∧ isDigitB (digitChar d) = true ∧
      isWs (digitChar d) = false ∧ digitChar d ≠ '=' := by
  decide

theorem renderNat_chars (n : Nat) :
    renderNat n ≠ [] ∧
      ∀ c ∈ renderNat n, isDigitB c = true ∧ isWs c = false ∧ c ≠ '=' := by
  unfold renderNat
  by_cases h : n = 0
  · subst h
    refine ⟨by simp, ?_⟩
    intro c hc
    rw [if_pos rfl, List.mem_singleton] at hc
    subst hc
    decide
  · rw [if_neg h]
    constructor
    · simp only [ne_eq, List.map_eq_nil_iff, List.reverse_eq_nil_iff]
      exact Nat.digits_ne_nil_iff_ne_zero.mpr h
    · intro c hc
      simp only [List.mem_map, List.mem_reverse] at hc
      obtain ⟨d, hd, rfl⟩ := hc
      have hlt : d < 10 := Nat.digits_lt_base (by norm_num) hd
      exact ⟨(digitChar_facts d hlt).2.1, (digitChar_facts d hlt).2.2⟩

theorem tokenOk_renderNat (n : Nat) : tokenOk (renderNat n) = true := by
  obtain ⟨hne, hall⟩ := renderNat_chars n
  unfold tokenOk
  simp only [Bool.and_eq_true, List.all_eq_true]
  refine ⟨by simpa using isEmpty_false_of_ne_nil _ hne, ?_⟩
  intro c hc
  obtain ⟨-, hws, heq⟩ := hall c hc
  simp [hws, heq]

theorem parseDecimalNat_renderNat (n : Nat) :
    parseDecimalNat (renderNat n) = some n := by
  obtain ⟨hne, hall⟩ := renderNat_chars n
  unfold parseDecimalNat
  rw [if_pos ⟨hne, by
    rw [List.all_eq_true]
    intro c hc
    exact (hall c hc).1⟩]
  congr 1
  unfold renderNat
  by_cases h : n = 0
  · subst h
    simp [digitVal, Nat.ofDigits]
  · rw [if_neg h]
    have hmap : List.map digitVal (List.map digitChar (Nat.digits 10 n).reverse) =
        (Nat.digits 10 n).reverse := by
      rw [List.map_map]
      have hcongr : ∀ d ∈ (Nat.digits 10 n).reverse, (digitVal ∘ digitChar) d = id d :=
        fun d hd => (digitChar_facts d (Nat.digits_lt_base (by norm_num)
          (List.mem_reverse.mp hd))).1
      rw [List.map_congr_left hcongr, List.map_id]
    rw [hmap, List.reverse_reverse, Nat.ofDigits_digits]

theorem mem_triple_cases {x : Char} (a b c : List Char)
    (hmem : x ∈ a ++ ' ' :: (b ++ ' ' :: c)) :
    x = ' ' ∨ x ∈ a ∨ x ∈ b ∨ x ∈ c := by
  rcases List.mem_append.mp hmem with h | h
  · exact Or.inr (Or.inl h)
  · rcases List.mem_cons.mp h with rfl | h
    · exact Or.inl rfl
    · rcases List.mem_append.mp h with h | h
      · exact Or.inr (Or.inr (Or.inl h))
      · rcases List.mem_cons.mp h with rfl | h
        · exact Or.inl rfl
        · exact Or.inr (Or.inr (Or.inr h))

theorem isWs_false_no_break {x : Char} (h : isWs x = false) :
    x ≠ '\n' ∧ x ≠ '\r' := by
  constructor
  · intro hx
    subst hx
    simp [isWs] at h
  · intro hx
    subst hx
    simp [isWs] at h

theorem trim_space_triple (a b c : List Char)
    (ha : tokenOk a = true) (hb : tokenOk b = true) (hc : tokenOk c = true) :
    trim (' ' :: (a ++ ' ' :: (b ++ ' ' :: c))) = a ++ ' ' :: (b ++ ' ' :: c) := by
  obtain ⟨hane, hac⟩ := tokenOk_spec a ha
  obtain ⟨hbne, hbc⟩ := tokenOk_spec b hb
  obtain ⟨hcne, hcc⟩ := tokenOk_spec c hc
  rw [trim_cons_space]
  obtain ⟨a0, at', rfl⟩ := List.exists_cons_of_ne_nil hane
  obtain ⟨cs, d, rfl⟩ := (List.eq_nil_or_concat c).resolve_left hcne
  simp only [List.concat_eq_append] at hcc ⊢
  apply trim_eq_self
  · intro c' t' hEq
    rw [List.cons_append] at hEq
    injection hEq with h1 _
    exact h1 ▸ (hac a0 (by simp)).1
  · intro c' t' hEq
    rw [show ((a0 :: at') ++ ' ' :: (b ++ ' ' :: (cs ++ [d]))).reverse =
        d :: (cs.reverse ++ ' ' :: (b.reverse ++ ' ' :: (at'.reverse ++ [a0]))) by
      simp] at hEq
    injection hEq with h1 _
    exact h1 ▸ (hcc d (by simp)).1

theorem headerLineEntry_keyval (kp v : List Char) (c0 : Char) (kt : List Char)
    (hk : kp = c0 :: kt) (hc0 : isWs c0 = false)
    (hknosep : ∀ c ∈ kp, c ≠ '=') (hvnosep : ∀ c ∈ v, c ≠ '=') :
    headerLineEntry (kp ++ '=' :: v) = some (trim kp, trim v) := by
  have hblank : ¬((trim (kp ++ '=' :: v)).isEmpty = true) := by
    subst hk
    rw [List.cons_append]
    simp [trim_isEmpty_false_of_head c0 _ hc0]
  unfold headerLineEntry
  rw [if_neg hblank, splitOnChar_append _ _ _ hknosep,
    splitOnChar_no_sep _ _ hvnosep]

theorem headerLineEntry_tripleLine (kp : List Char) (c0 : Char) (kt : List Char)
    (hk : kp = c0 :: kt) (hc0 : isWs c0 = false) (hknosep : ∀ c ∈ kp, c ≠ '=')
    (a b c : List Char) (ha : tokenOk a = true) (hb : tokenOk b = true)
    (hc : tokenOk c = true) :
    headerLineEntry (kp ++ '=' :: (' ' :: (a ++ ' ' :: (b ++ ' ' :: c)))) =
      some (trim kp, a ++ ' ' :: (b ++ ' ' :: c)) := by
  have hvnosep : ∀ x ∈ ' ' :: (a ++ ' ' :: (b ++ ' ' :: c)), x ≠ '=' := by
    intro x hx
    rcases List.mem_cons.mp hx with rfl | hx2
    · decide
    · rcases mem_triple_cases a b c hx2 with rfl | hx3 | hx3 | hx3
      · decide
      · exact ((tokenOk_spec a ha).2 x hx3).2
      · exact ((tokenOk_spec b hb).2 x hx3).2
      · exact ((tokenOk_spec c hc).2 x hx3).2
  rw [headerLineEntry_keyval kp _ c0 kt hk hc0 hknosep hvnosep,
    trim_space_triple a b c ha hb hc]

/-- The ten header lines written by `exportGateFiles` (`mhdContent`), with the
gate-order `DimSize` entries `d1 d2 d3` (integer-valued, rendered in decimal)
and the gate-order spacing and offset rendered as the tokens `s1 s2 s3` and
`o1 o2 o3`. -/
def mhdLines (d1 d2 d3 : Nat) (s1 s2 s3 o1 o2 o3 : List Char) :
    List (List Char) := [
  str "ObjectType = Image",
  str "NDims = 3",
  str "BinaryData = True",
  str "BinaryDataByteOrderMSB = False",
  str "TransformMatrix = 1 0 0 0 1 0 0 0 1",
  str "Offset = " ++ (o1 ++ ' ' :: (o2 ++ ' ' :: o3)),
  str "ElementSpacing = " ++ (s1 ++ ' ' :: (s2 ++ ' ' :: s3)),
  str "DimSize = " ++
    (renderNat d1 ++ ' ' :: (renderNat d2 ++ ' ' :: renderNat d3)),
  str "ElementType = MET_FLOAT",
  str "ElementDataFile = simulation-Dose.raw"]

/-- The header text written by `exportGateFiles`: the ten lines joined with
CRLF. -/
def mhdContent (d1 d2 d3 : Nat) (s1 s2 s3 o1 o2 o3 : List Char) : List Char :=
  joinCRLF (mhdLines d1 d2 d3 s1 s2 s3 o1 o2 o3)

/-- The exported header text parsed back by `MHDHandler.parseHeader`. -/
def parsedExportHeader (d1 d2 d3 : Nat) (s1 s2 s3 o1 o2 o3 : List Char) :
    List (List Char × List Char) :=
  parseHeader (mhdContent d1 d2 d3 s1 s2 s3 o1 o2 o3)

theorem clean_tripleLine (pre : List Char)
    (hpre : ∀ c ∈ pre, c ≠ '\n' ∧ c ≠ '\r') (a b c : List Char)
    (ha : tokenOk a = true) (hb : tokenOk b = true) (hc : tokenOk c = true) :
    ∀ x ∈ pre ++ (a ++ ' ' :: (b ++ ' ' :: c)), x ≠ '\n' ∧ x ≠ '\r' := by
  intro x hx
  rcases List.mem_append.mp hx with h | h
  · exact hpre x h
  · rcases mem_triple_cases a b c h with rfl | h2 | h2 | h2
    · decide
    · exact isWs_false_no_break (((tokenOk_spec a ha).2 x h2).1)
    · exact isWs_false_no_break (((tokenOk_spec b hb).2 x h2).1)
    · exact isWs_false_no_break (((tokenOk_spec c hc).2 x h2).1)

/-- C7: parsing the header text produced by the export serializer recovers
the five serialized fields exactly: the `DimSize` triple parses back to the
serialized voxel counts, the `ElementSpacing` and `Offset` values are the
three serialized tokens (recovered verbatim, and re-split into exactly those
tokens), the element type is `MET_FLOAT`, and the byte-order flag decodes to
little-endian as written (`BinaryDataByteOrderMSB = False`). -/
theorem header_serialize_parse_roundtrip (d1 d2 d3 : Nat)
    (s1 s2 s3 o1 o2 o3 : List Char)
    (hs1 : tokenOk s1 = true) (hs2 : tokenOk s2 = true) (hs3 : tokenOk s3 = true)
    (ho1 : tokenOk o1 = true) (ho2 : tokenOk o2 = true) (ho3 : tokenOk o3 = true) :
    (hLookup (parsedExportHeader d1 d2 d3 s1 s2 s3 o1 o2 o3)
        (str "DimSize")).bind parseDims = some (d1, d2, d3) ∧
    hLookup (parsedExportHeader d1 d2 d3 s1 s2 s3 o1 o2 o3)
        (str "ElementSpacing") = some (s1 ++ ' ' :: (s2 ++ ' ' :: s3)) ∧
    splitWs (s1 ++ ' ' :: (s2 ++ ' ' :: s3)) = [s1, s2, s3] ∧
    hLookup (parsedExportHeader d1 d2 d3 s1 s2 s3 o1 o2 o3)
        (str "Offset") = some (o1 ++ ' ' :: (o2 ++ ' ' :: o3)) ∧
    splitWs (o1 ++ ' ' :: (o2 ++ ' ' :: o3)) = [o1, o2, o3] ∧
    hLookup (parsedExportHeader d1 d2 d3 s1 s2 s3 o1 o2 o3)
        (str "ElementType") = some (str "MET_FLOAT") ∧
    (hLookup (parsedExportHeader d1 d2 d3 s1 s2 s3 o1 o2 o3)
        (str "BinaryDataByteOrderMSB") == some (str "True")) = false := by
  have hr1 := renderNat_chars d1
  have hr2 := renderNat_chars d2
  have hr3 := renderNat_chars d3
  have hclean : ∀ l ∈ mhdLines d1 d2 d3 s1 s2 s3 o1 o2 o3,
      ∀ c ∈ l, c ≠ '\n' ∧ c ≠ '\r' := by
    intro l hl
    simp only [mhdLines, List.mem_cons, List.not_mem_nil, or_false] at hl
    rcases hl with rfl | rfl | rfl | rfl | rfl | rfl | rfl | rfl | rfl | rfl
    · decide
    · decide
    · decide
    · decide
    · decide
    · exact clean_tripleLine (str "Offset = ") (by decide) o1 o2 o3 ho1 ho2 ho3
    · exact clean_tripleLine (str "ElementSpacing = ") (by decide) s1 s2 s3
        hs1 hs2 hs3
    · exact clean_tripleLine (str "DimSize = ") (by decide) _ _ _
        (tokenOk_renderNat d1) (tokenOk_renderNat d2) (tokenOk_renderNat d3)
    · decide
    · decide
  have hsplit : splitLines (mhdContent d1 d2 d3 s1 s2 s3 o1 o2 o3) =
      mhdLines d1 d2 d3 s1 s2 s3 o1 o2 o3 :=
    splitLines_joinCRLF _ hclean (by simp [mhdLines])
  have eOffset : headerLineEntry
      (str "Offset = " ++ (o1 ++ ' ' :: (o2 ++ ' ' :: o3))) =
      some (str "Offset", o1 ++ ' ' :: (o2 ++ ' ' :: o3)) := by
    rw [show str "Offset = " ++ (o1 ++ ' ' :: (o2 ++ ' ' :: o3)) =
        str "Offset " ++ '=' :: (' ' :: (o1 ++ ' ' :: (o2 ++ ' ' :: o3))) from rfl]
    rw [headerLineEntry_tripleLine (str "Offset ") 'O' (str "ffset ") rfl
      (by decide) (by decide) o1 o2 o3 ho1 ho2 ho3]
    rfl
  have eSpacing : headerLineEntry
      (str "ElementSpacing = " ++ (s1 ++ ' ' :: (s2 ++ ' ' :: s3))) =
      some (str "ElementSpacing", s1 ++ ' ' :: (s2 ++ ' ' :: s3)) := by
    rw [show str "ElementSpacing = " ++ (s1 ++ ' ' :: (s2 ++ ' ' :: s3)) =
        str "ElementSpacing " ++ '=' :: (' ' :: (s1 ++ ' ' :: (s2 ++ ' ' :: s3)))
        from rfl]
    rw [headerLineEntry_tripleLine (str "ElementSpacing ") 'E'
      (str "lementSpacing ") rfl (by decide) (by decide) s1 s2 s3 hs1 hs2 hs3]
    rfl
  have eDim : headerLineEntry
      (str "DimSize = " ++
        (renderNat d1 ++ ' ' :: (renderNat d2 ++ ' ' :: renderNat d3))) =
      some (str "DimSize",
        renderNat d1 ++ ' ' :: (renderNat d2 ++ ' ' :: renderNat d3)) := by
    rw [show str "DimSize = " ++
        (renderNat d1 ++ ' ' :: (renderNat d2 ++ ' ' :: renderNat d3)) =
        str "DimSize " ++ '=' ::
        (' ' :: (renderNat d1 ++ ' ' :: (renderNat d2 ++ ' ' :: renderNat d3)))
        from rfl]
    rw [headerLineEntry_tripleLine (str "DimSize ") 'D' (str "imSize ") rfl
      (by decide) (by decide) _ _ _ (tokenOk_renderNat d1) (tokenOk_renderNat d2)
      (tokenOk_renderNat d3)]
    rfl
  have hentries : (mhdLines d1 d2 d3 s1 s2 s3 o1 o2 o3).filterMap headerLineEntry = [
      (str "ObjectType", str "Image"),
      (str "NDims", str "3"),
      (str "BinaryData", str "True"),
      (str "BinaryDataByteOrderMSB", str "False"),
      (str "TransformMatrix", str "1 0 0 0 1 0 0 0 1"),
      (str "Offset", o1 ++ ' ' :: (o2 ++ ' ' :: o3)),
      (str "ElementSpacing", s1 ++ ' ' :: (s2 ++ ' ' :: s3)),
      (str "DimSize", renderNat d1 ++ ' ' :: (renderNat d2 ++ ' ' :: renderNat d3)),
      (str "ElementType", str "MET_FLOAT"),
      (str "ElementDataFile", str "simulation-Dose.raw")] := by
    simp only [mhdLines, List.filterMap_cons, eOffset, eSpacing, eDim]
    rfl
  have hws_r : ∀ n, ∀ x ∈ renderNat n, isWs x = false :=
    fun n x hx => ((renderNat_chars n).2 x hx).2.1
  have hws_tok : ∀ t, tokenOk t = true → ∀ x ∈ t, isWs x = false :=
    fun t ht x hx => ((tokenOk_spec t ht).2 x hx).1
  have hDimLookup : hLookup (parsedExportHeader d1 d2 d3 s1 s2 s3 o1 o2 o3)
      (str "DimSize") =
      some (renderNat d1 ++ ' ' :: (renderNat d2 ++ ' ' :: renderNat d3)) := by
    unfold parsedExportHeader
    rw [parseHeader_characterization, hsplit, hentries]
    rfl
  refine ⟨?_, ?_, ?_, ?_, ?_, ?_, ?_⟩
  · rw [hDimLookup, Option.some_bind]
    unfold parseDims
    rw [splitWs_triple _ _ _ (hws_r d1) (hws_r d2) (hws_r d3)
      (renderNat_chars d2).1 (renderNat_chars d3).1]
    simp [parseDecimalNat_renderNat]
  · unfold parsedExportHeader
    rw [parseHeader_characterization, hsplit, hentries]
    rfl
  · exact splitWs_triple _ _ _ (hws_tok s1 hs1) (hws_tok s2 hs2) (hws_tok s3 hs3)
      (tokenOk_spec s2 hs2).1 (tokenOk_spec s3 hs3).1
  · unfold parsedExportHeader
    rw [parseHeader_characterization, hsplit, hentries]
    rfl
  · exact splitWs_triple _ _ _ (hws_tok o1 ho1) (hws_tok o2 ho2) (hws_tok o3 ho3)
      (tokenOk_spec o2 ho2).1 (tokenOk_spec o3 ho3).1
  · unfold parsedExportHeader
    rw [parseHeader_characterization, hsplit, hentries]
    rfl
  · unfold parsedExportHeader
    rw [parseHeader_characterization, hsplit, hentries]
    rfl

/-- C7 witness: the round trip evaluated at `DimSize = 10 10 5` with spacing
tokens `10 10 10` and offset tokens `0 0 0`. -/
theorem header_serialize_parse_roundtrip_witness :
    (hLookup (parsedExportHeader 10 10 5 (str "10") (str "10") (str "10")
        (str "0") (str "0") (str "0")) (str "DimSize")).bind parseDims =
      some (10, 10, 5) ∧
    hLookup (parsedExportHeader 10 10 5 (str "10") (str "10") (str "10")
        (str "0") (str "0") (str "0")) (str "ElementSpacing") =
      some (str "10" ++ ' ' :: (str "10" ++ ' ' :: str "10")) ∧
    splitWs (str "10" ++ ' ' :: (str "10" ++ ' ' :: str "10")) =
      [str "10", str "10", str "10"] ∧
    hLookup (parsedExportHeader 10 10 5 (str "10") (str "10") (str "10")
        (str "0") (str "0") (str "0")) (str "Offset") =
      some (str "0" ++ ' ' :: (str "0" ++ ' ' :: str "0")) ∧
    splitWs (str "0" ++ ' ' :: (str "0" ++ ' ' :: str "0")) =
      [str "0", str "0", str "0"] ∧
    hLookup (parsedExportHeader 10 10 5 (str "10") (str "10") (str "10")
        (str "0") (str "0") (str "0")) (str "ElementType") =
      some (str "MET_FLOAT") ∧
    (hLookup (parsedExportHeader 10 10 5 (str "10") (str "10") (str "10")
        (str "0") (str "0") (str "0")) (str "BinaryDataByteOrderMSB") ==
      some (str "True")) = false :=
  header_serialize_parse_roundtrip 10 10 5 (str "10") (str "10") (str "10")
    (str "0") (str "0") (str "0") (by decide) (by decide) (by decide)
    (by decide) (by decide) (by decide)

end OGV
